import Mathlib

/-!
Shallow embedding of the core introspection layer of the
lunistice-auto-splitter repository (the asr-dotnet library in
src/asr-dotnet/src/lib.rs together with the record binding and decoding
code generated by src/asr-dotnet/asr-dotnet-derive/src/lib.rs, in its
default (non-il2cpp, "legacy Mono ABI") configuration).

Modelling conventions:

* Remote process memory is modelled at the object level: a ProcState
  carries one partial map per kind of remote structure the code reads
  (raw bytes, pointer-sized words, MonoClassDef records, MonoClassField
  records, GList nodes, hash table slots).  A map returning none models
  a failing remote read at that address; all behaviours of the
  underlying read primitive quantified over in the claims correspond to
  choices of these maps.
* Machine integers are Nat (u64/usize/u32) or Int (i32), with the Rust
  conversion "i32 as usize" made explicit as i32AsUsize (sign extension
  followed by reinterpretation, that is reduction mod 2^64).  The u64
  address arithmetic in Ptr never overflows in any theorem below, the
  overflow-freedom hypotheses are stated where the claims need them.
* Every fallible Rust computation is translated into the Res monad,
  whose err constructor models Result::Err / Option::None and whose
  panicked constructor models a Rust panic (a failed unwrap or an
  out-of-bounds slice split).  A lazy Rust iterator is embedded as the
  function the relevant caller consumes it with (full enumeration as a
  list, or a fused find), with an explicit fuel bound for chains that
  the source walks via "next" pointers (the source loops forever on a
  cyclic chain; every theorem quantifies over sufficient fuel).
* bytemuck::from_bytes reinterpretation is modelled by returning the
  raw byte range itself: a decoded field value is the list of bytes of
  its range, the pure bit-pattern copy the source performs.
-/

namespace AsrDotnet

set_option maxRecDepth 100000

/-- Outcome of a fallible remote operation: success, a recoverable
failure (Rust Result::Err / Option::None), or a Rust panic. -/
inductive Res (α : Type) where
  | ok : α → Res α
  | err : Res α
  | panicked : Res α
  deriving DecidableEq, Repr

/-- Sequencing of fallible operations (Rust ? on Result/Option). -/
def Res.bind {α β : Type} : Res α → (α → Res β) → Res β
  | Res.ok a, f => f a
  | Res.err, _ => Res.err
  | Res.panicked, _ => Res.panicked

/-- Result::Ok / Option::Some lifted from an optional read result
(process.read(...).map_err(drop)). -/
def readOpt {α : Type} : Option α → Res α
  | some a => Res.ok a
  | none => Res.err

/-- Typed remote pointer: src/asr-dotnet/src/lib.rs line 22,
pub struct Ptr<T maybe>(u64, PhantomData<T>). The u64 address is a Nat;
the phantom tag is the type parameter. -/
structure Ptr (α : Type) where
  addr : Nat
  deriving DecidableEq, Repr

/-- Ptr::is_null (line 32): the address is compared against 0. -/
def Ptr.is_null {α : Type} (p : Ptr α) : Bool :=
  p.addr == 0

/-- Ptr::cast (line 36): reinterpret the phantom tag, same address. -/
def Ptr.cast {α : Type} (β : Type) (p : Ptr α) : Ptr β :=
  ⟨p.addr⟩

/-- Ptr::byte_offset (line 40): Self(self.0 + bytes, PhantomData). -/
def Ptr.byte_offset {α : Type} (p : Ptr α) (bytes : Nat) : Ptr α :=
  ⟨p.addr + bytes⟩

/-- Ptr::offset (line 44): Self(self.0 + count * size_of T). The
element size size_of T is passed explicitly as sz. -/
def Ptr.offset {α : Type} (sz : Nat) (p : Ptr α) (count : Nat) : Ptr α :=
  ⟨p.addr + count * sz⟩

/-- Ptr::read (line 50): one remote read of a T at the pointer address;
rd is the process read primitive for T (none models a failed read). -/
def Ptr.read {α : Type} (rd : Nat → Option α) (p : Ptr α) : Res α :=
  readOpt (rd p.addr)

/-- Ptr::index (line 54): read at self.addr + idx * size_of T. -/
def Ptr.index {α : Type} (rd : Nat → Option α) (sz : Nat) (p : Ptr α)
    (idx : Nat) : Res α :=
  readOpt (rd (p.addr + idx * sz))

/-- Mono field metadata record, legacy ABI (lib.rs lines 655-664): the
two members the library reads are kept, the name pointer (address of a
NUL terminated byte string) and the i32 field offset. -/
structure MonoClassField where
  name : Nat
  offset : Int
  deriving DecidableEq, Repr

/-- The members of the legacy MonoClass (lib.rs lines 442-486) that the
embedded operations consult: instance_size (i32), the class name and
namespace string addresses, and the base address of the field array. -/
structure MonoClass where
  instance_size : Int
  name : Nat
  name_space : Nat
  fields : Nat
  deriving DecidableEq, Repr

/-- MonoClassDef (lib.rs lines 397-408): embedded MonoClass plus the
field count and the intrusive next-in-bucket pointer of the image class
hash table (next_class_cache, stored as its address). -/
structure MonoClassDef where
  klass : MonoClass
  field_count : Nat
  next_class_cache : Nat
  deriving DecidableEq, Repr

/-- MonoInternalHashTable (lib.rs lines 363-372): bucket count (i32)
and bucket array base address. -/
structure MonoInternalHashTable where
  size : Int
  table : Nat
  deriving DecidableEq, Repr

/-- The member of the legacy MonoImage (lib.rs lines 254-300) that
class enumeration reads: the class_cache hash table. -/
structure MonoImage where
  class_cache : MonoInternalHashTable
  deriving DecidableEq, Repr

/-- GList node (lib.rs lines 168-174): data, next, prev pointers,
stored as addresses. -/
structure GListNode where
  data : Nat
  next : Nat
  prev : Nat
  deriving DecidableEq, Repr

/-- GHashTable slot (lib.rs lines 157-163): key, value, next pointers,
stored as addresses. -/
structure Slot where
  key : Nat
  value : Nat
  next : Nat
  deriving DecidableEq, Repr

/-- The members of GHashTable (lib.rs lines 119-132) that iteration
reads: bucket array base address and bucket count (i32). -/
structure GHashTable where
  table : Nat
  table_size : Int
  deriving DecidableEq, Repr

/-- Remote process memory, one partial read map per structure kind the
library reads.  none at an address models the read primitive failing
there (unmapped page, process gone). -/
structure ProcState where
  bytes : Nat → Option Nat
  ptrAt : Nat → Option Nat
  classDefAt : Nat → Option MonoClassDef
  fieldAt : Nat → Option MonoClassField
  glistAt : Nat → Option GListNode
  slotAt : Nat → Option Slot

/-- Rust i32 as usize: sign extension to 64 bits reinterpreted as an
unsigned value, that is the representative of the value mod 2^64. -/
def i32AsUsize (x : Int) : Nat :=
  (x % (2 ^ 64 : Int)).toNat

/-- size_of MonoClassField in the legacy ABI: three 8-byte pointers,
an i32 and 4 bytes of padding. -/
def monoClassFieldSize : Nat := 32

/-- size_of a remote pointer. -/
def ptrSize : Nat := 8

/-- One bounded remote read of n bytes starting at addr
(process.read_into_buf / read_into_uninit_buf): all-or-nothing, the
whole read fails if any byte is unavailable. -/
def readBytesList (p : ProcState) (addr : Nat) : Nat → Option (List Nat)
  | 0 => some []
  | n + 1 =>
    match p.bytes addr, readBytesList p (addr + 1) n with
    | some b, some rest => some (b :: rest)
    | _, _ => none

/-- Loop body of Ptr CStr read_str (lib.rs lines 62-92).  State: the
remote cursor addr, the bytes already copied into the local 32 KiB
buffer (acc), and the remaining capacity of that buffer.  Each round:
chunk length = min(distance to the next 4096-byte page boundary, 256);
splitting the local buffer panics when the chunk no longer fits
(cursor.split_at_mut); the chunk read is unwrapped, so a failing read
panics; scanning stops at the first NUL in the chunk, the consumer
closure receiving the buffer contents before it; otherwise the remote
cursor advances to the page boundary (addr = end in the source) and the
loop continues.  The fuel argument only bounds the iteration count: the
initial fuel equals the initial remaining capacity, and as every round
consumes at least one byte of capacity, fuel cannot run out before the
buffer does (fuel 0 forces remaining = 0 < chunk length, the same
panic the source raises then). -/
def readStrLoop (p : ProcState) : Nat → Nat → List Nat → Nat → Res (List Nat)
  | 0, _, _, _ => Res.panicked
  | fuel + 1, addr, acc, remaining =>
    let len := min (4096 - addr % 4096) 256
    if len ≤ remaining then
      match readBytesList p addr len with
      | none => Res.panicked
      | some chunk =>
        match chunk.findIdx? (fun b => b == 0) with
        | some pos => Res.ok (acc ++ chunk.take pos)
        | none => readStrLoop p fuel (addr - addr % 4096 + 4096) (acc ++ chunk) (remaining - len)
    else Res.panicked

/-- Ptr CStr read_str: scan the NUL terminated string at addr through a
32 KiB (32768 byte) local buffer; the value passed to the consumer
closure is returned. -/
def read_str (p : ProcState) (addr : Nat) : Res (List Nat) :=
  readStrLoop p 32768 addr [] 32768

/-- Ptr GList iter (lib.rs lines 95-107), consumed into a list of the
yielded data pointers: stop at a null node pointer; a failing node read
(self.read(process).ok() then ?) silently ends the iteration.  fuel
bounds the number of nodes followed (the source loops forever on a
cyclic list). -/
def glistToList (p : ProcState) : Nat → Nat → List Nat
  | 0, _ => []
  | fuel + 1, addr =>
    if addr == 0 then []
    else
      match p.glistAt addr with
      | none => []
      | some node => node.data :: glistToList p fuel node.next

/-- One bucket chain of MonoImage::classes (lib.rs lines 330-338):
follow next_class_cache pointers until null; a failing class read
(class_ptr.read(process).ok() then ?) silently ends the chain. -/
def walkClassChain (p : ProcState) : Nat → Nat → List MonoClassDef
  | 0, _ => []
  | fuel + 1, addr =>
    if addr == 0 then []
    else
      match p.classDefAt addr with
      | none => []
      | some cd => cd :: walkClassChain p fuel cd.next_class_cache

/-- Bucket loop of MonoImage::classes (lib.rs lines 327-340), consumed
as a full enumeration: buckets i, i+1, ... (k remaining); the bucket
head read self.class_cache.table.index(process, i).unwrap() panics on
failure; each bucket contributes its chain in order. -/
def classesFrom (p : ProcState) (tbl fuel : Nat) : Nat → Nat → Res (List MonoClassDef)
  | _, 0 => Res.ok []
  | i, k + 1 =>
    match p.ptrAt (tbl + i * ptrSize) with
    | none => Res.panicked
    | some head =>
      Res.bind (classesFrom p tbl fuel (i + 1) k) fun rest =>
        Res.ok (walkClassChain p fuel head ++ rest)

/-- MonoImage::classes, legacy ABI: walk class_cache.size buckets of
the image's class hash table. -/
def classes (p : ProcState) (img : MonoImage) (fuel : Nat) : Res (List MonoClassDef) :=
  classesFrom p img.class_cache.table fuel 0 (i32AsUsize img.class_cache.size)

/-- MonoImage::classes consumed by Iterator::find with predicate pred
over one bucket chain (the derive macro's class lookup, lazily
evaluated, so later reads are not performed after a match). -/
def findInChain (p : ProcState) (pred : MonoClassDef → Res Bool) :
    Nat → Nat → Res (Option MonoClassDef)
  | 0, _ => Res.ok none
  | fuel + 1, addr =>
    if addr == 0 then Res.ok none
    else
      match p.classDefAt addr with
      | none => Res.ok none
      | some cd =>
        match pred cd with
        | Res.ok true => Res.ok (some cd)
        | Res.ok false => findInChain p pred fuel cd.next_class_cache
        | Res.err => Res.err
        | Res.panicked => Res.panicked

/-- Bucket loop of the fused classes().find(pred): bucket head reads
are unwrapped (panic on failure) before the chain is searched. -/
def findClassFrom (p : ProcState) (pred : MonoClassDef → Res Bool) (tbl fuel : Nat) :
    Nat → Nat → Res (Option MonoClassDef)
  | _, 0 => Res.ok none
  | i, k + 1 =>
    match p.ptrAt (tbl + i * ptrSize) with
    | none => Res.panicked
    | some head =>
      match findInChain p pred fuel head with
      | Res.ok none => findClassFrom p pred tbl fuel (i + 1) k
      | r => r

/-- image.classes(process).find(pred): the class lookup the generated
bind performs. -/
def findClass (p : ProcState) (pred : MonoClassDef → Res Bool) (img : MonoImage)
    (fuel : Nat) : Res (Option MonoClassDef) :=
  findClassFrom p pred img.class_cache.table fuel 0 (i32AsUsize img.class_cache.size)

/-- GHashTable slot chain (lib.rs lines 143-151): slot reads are
unwrapped (slot_ptr.read(process).unwrap()), so a failing slot read
panics; the chain ends at a null slot pointer. -/
def walkSlotChain (p : ProcState) : Nat → Nat → Res (List (Nat × Nat))
  | 0, _ => Res.ok []
  | fuel + 1, addr =>
    if addr == 0 then Res.ok []
    else
      match p.slotAt addr with
      | none => Res.panicked
      | some s =>
        Res.bind (walkSlotChain p fuel s.next) fun rest =>
          Res.ok ((s.key, s.value) :: rest)

/-- Bucket loop of GHashTable::iter (lib.rs lines 139-154), consumed as
a full enumeration: a failing bucket head read
(self.table.index(process, i).ok() then ?) skips that bucket. -/
def ghashBuckets (p : ProcState) (tbl fuel : Nat) : Nat → Nat → Res (List (Nat × Nat))
  | _, 0 => Res.ok []
  | i, k + 1 =>
    match p.ptrAt (tbl + i * ptrSize) with
    | none => ghashBuckets p tbl fuel (i + 1) k
    | some head =>
      Res.bind (walkSlotChain p fuel head) fun here =>
        Res.bind (ghashBuckets p tbl fuel (i + 1) k) fun rest =>
          Res.ok (here ++ rest)

/-- GHashTable::iter: walk table_size buckets, yielding key/value
pointer pairs. -/
def ghashIter (p : ProcState) (t : GHashTable) (fuel : Nat) : Res (List (Nat × Nat)) :=
  ghashBuckets p t.table fuel 0 (i32AsUsize t.table_size)

/-- MonoClassDef::fields consumed by find (lib.rs lines 411-421): scan
field entries i, i+1, ... (k remaining) of the field array at base;
fields(process) is (0..field_count).flat_map(index), so a failing entry
read yields no item and the entry is skipped; the name of each read
entry is compared against the target bytes via read_str (whose panics
propagate); the first match wins and its offset is converted with
"as usize". -/
def findFieldFrom (p : ProcState) (base : Nat) (target : List Nat) :
    Nat → Nat → Res (Option Nat)
  | _, 0 => Res.ok none
  | i, k + 1 =>
    match p.fieldAt (base + i * monoClassFieldSize) with
    | none => findFieldFrom p base target (i + 1) k
    | some fld =>
      match read_str p fld.name with
      | Res.ok n =>
        if n = target then Res.ok (some (i32AsUsize fld.offset))
        else findFieldFrom p base target (i + 1) k
      | Res.err => Res.err
      | Res.panicked => Res.panicked

/-- MonoClassDef::find_field: first field whose decoded name equals the
target, returning field.offset as usize; none when no entry matches. -/
def find_field (p : ProcState) (cd : MonoClassDef) (target : List Nat) :
    Res (Option Nat) :=
  findFieldFrom p cd.klass.fields target 0 cd.field_count

/-- The logical record description the derive macro compiles away: the
class name and namespace bytes and the ordered (field name bytes,
size_of field type) list. -/
structure ClassDescription where
  name : List Nat
  name_space : List Nat
  fields : List (List Nat × Nat)
  deriving DecidableEq, Repr

/-- The generated Binding struct (derive lib.rs lines 48-51): the
resolved MonoClassDef plus one usize offset per declared field, in
declaration order. -/
structure RecordBinding where
  klass : MonoClassDef
  offsets : List Nat
  deriving DecidableEq, Repr

/-- The class predicate of the generated bind (derive lib.rs lines
57-64): name matches, and (short-circuit &&) namespace matches, both
via read_str byte comparison. -/
def classNameMatches (p : ProcState) (dname dns : List Nat) (cd : MonoClassDef) :
    Res Bool :=
  Res.bind (read_str p cd.klass.name) fun n =>
    if n = dname then
      Res.bind (read_str p cd.klass.name_space) fun s => Res.ok (s = dns)
    else Res.ok false

/-- The per-field resolution block of the generated bind (derive lib.rs
lines 67-69): for each declared field in order,
class.find_field(process, name).ok_or(())? . -/
def resolveOffsets (p : ProcState) (cd : MonoClassDef) :
    List (List Nat × Nat) → Res (List Nat)
  | [] => Res.ok []
  | (fname, _) :: rest =>
    Res.bind (find_field p cd fname) fun
      | none => Res.err
      | some off =>
        Res.bind (resolveOffsets p cd rest) fun offs => Res.ok (off :: offs)

/-- The generated bind (derive lib.rs lines 54-74): find the class by
name and namespace (ok_or(())? on a missed lookup), then resolve every
declared field offset; the Binding value is built only after all
offsets resolved. -/
def bind (p : ProcState) (img : MonoImage) (desc : ClassDescription) (fuel : Nat) :
    Res RecordBinding :=
  Res.bind (findClass p (classNameMatches p desc.name desc.name_space) img fuel) fun
    | none => Res.err
    | some cd =>
      Res.bind (resolveOffsets p cd desc.fields) fun offs =>
        Res.ok ⟨cd, offs⟩

/-- MonoClass::get_instance (lib.rs lines 575-585): a 4 KiB local
buffer, shrunk to instance_size as usize
(buf.get_mut(..size).ok_or(())?, a hard failure when the declared size
exceeds the cap), filled by one bounded remote read
(read_into_buf(...).map_err(drop)?).  The decode closure receives the
buffer; here the buffer itself is returned and the decode applied by
the caller. -/
def get_instance (p : ProcState) (cls : MonoClass) (instanceAddr : Nat) :
    Res (List Nat) :=
  let sz := i32AsUsize cls.instance_size
  if sz ≤ 4096 then
    match readBytesList p instanceAddr sz with
    | none => Res.err
    | some buf => Res.ok buf
  else Res.err

/-- One field decode of the generated load (derive lib.rs lines 90-94):
instance_data.get(off..).ok_or(())?.get(..size).ok_or(())?, then
*bytemuck::from_bytes::<T>.  The two get calls bounds-check the range
(Err on overrun); from_bytes then requires the slice address to be a
multiple of align_of T and panics otherwise.  The snapshot lives in a
local [u8; 4096] stack buffer whose runtime address is the model
parameter base, so the slice address is base + off; the slice length
always equals size_of T here, so from_bytes's length panic is
unreachable.  The bit-pattern copy itself is modelled as the byte
range. -/
def sliceField (data : List Nat) (base off size align : Nat) : Res (List Nat) :=
  if off ≤ data.length then
    let r := data.drop off
    if size ≤ r.length then
      if (base + off) % align = 0 then Res.ok (r.take size) else Res.panicked
    else Res.err
  else Res.err

/-- The field loop of the generated load: every (offset, size_of,
align_of) triple in declaration order, the whole decode failing if any
range is out of bounds and panicking on a misaligned in-bounds
slice. -/
def decodeFields (data : List Nat) (base : Nat) :
    List (Nat × Nat × Nat) → Res (List (List Nat))
  | [] => Res.ok []
  | (off, sz, al) :: rest =>
    Res.bind (sliceField data base off sz al) fun v =>
      Res.bind (decodeFields data base rest) fun vs => Res.ok (v :: vs)

/-- The generated load (derive lib.rs lines 82-98): one get_instance
snapshot, then all bound fields sliced out of that snapshot.  sizes
and aligns are the declared size_of and align_of lists of the record's
field types in declaration order, and base is the runtime address of
the local snapshot buffer. -/
def load (p : ProcState) (b : RecordBinding) (sizes aligns : List Nat)
    (base instanceAddr : Nat) : Res (List (List Nat)) :=
  Res.bind (get_instance p b.klass.klass instanceAddr) fun data =>
    decodeFields data base (b.offsets.zip (sizes.zip aligns))

/-- Per-field resolution certificate: find_field succeeds for every
declared field, producing the given usize offsets in order. -/
def resolvesAll (p : ProcState) (cd : MonoClassDef) :
    List (List Nat × Nat) → List Nat → Bool
  | [], [] => true
  | f :: fs, off :: offs =>
    decide (find_field p cd f.1 = Res.ok (some off)) && resolvesAll p cd fs offs
  | _, _ => false

/-- Snapshot certificate: every declared field's byte range
[off, off+size) lies inside the snapshot and holds the given value
bytes. -/
def storesVals (snap : List Nat) :
    List (List Nat × Nat) → List Nat → List (List Nat) → Bool
  | [], [], [] => true
  | f :: fs, off :: offs, v :: vs =>
    decide (off + f.2 ≤ snap.length) &&
      decide ((snap.drop off).take f.2 = v) && storesVals snap fs offs vs
  | _, _, _ => false

/-- Alignment certificate: for a snapshot buffer at runtime address
base, every field's slice address base + offset is a multiple of that
field's declared alignment (the condition under which
bytemuck::from_bytes does not panic). -/
def alignsAll (base : Nat) : List Nat → List Nat → Bool
  | [], [] => true
  | off :: offs, al :: als =>
    decide ((base + off) % al = 0) && alignsAll base offs als
  | _, _ => false

/-- Chain realization certificate: starting from head, the memory holds
exactly the listed (address, class record) nodes linked through
next_class_cache, after which the next pointer is stop. -/
def classChainStopsAt (p : ProcState) : Nat → List (Nat × MonoClassDef) → Nat → Bool
  | head, [], stop => head == stop
  | head, (a, cd) :: rest, stop =>
    head == a && !(a == 0) && decide (p.classDefAt a = some cd) &&
      classChainStopsAt p cd.next_class_cache rest stop

/-- Bucket array realization certificate: for buckets i, i+1, ... the
head pointer reads succeed and each bucket's chain is realized, every
chain ending at the null pointer. -/
def bucketsRealize (p : ProcState) (tbl : Nat) :
    Nat → List (List (Nat × MonoClassDef)) → Bool
  | _, [] => true
  | i, chain :: rest =>
    match p.ptrAt (tbl + i * ptrSize) with
    | some head => classChainStopsAt p head chain 0 && bucketsRealize p tbl (i + 1) rest
    | none => false

/-- GList realization certificate: from head, memory holds exactly the
listed (address, node) pairs linked through next, after which the next
pointer is stop. -/
def glistStopsAt (p : ProcState) : Nat → List (Nat × GListNode) → Nat → Bool
  | head, [], stop => head == stop
  | head, (a, node) :: rest, stop =>
    head == a && !(a == 0) && decide (p.glistAt a = some node) &&
      glistStopsAt p node.next rest stop

/-- Modelled from the spec: the spec's section 4.3 describes legacy
class enumeration as walking "a fixed-size bucket array (56 buckets)"
of the image's class hash table; this variant walks 56 buckets instead
of the class_cache.size the source reads, for comparison with
classes. -/
def classesSpecFixed56 (p : ProcState) (img : MonoImage) (fuel : Nat) :
    Res (List MonoClassDef) :=
  classesFrom p img.class_cache.table fuel 0 56

/-- Byte content "Timer" of the synthetic class name string. -/
def strTimer : List Nat := [84, 105, 109, 101, 114]

/-- Byte content "currentLevelTime" of the first synthetic field
name. -/
def strCLT : List Nat :=
  [99, 117, 114, 114, 101, 110, 116, 76, 101, 118, 101, 108, 84, 105, 109, 101]

/-- Byte content "timerStopped" of the second synthetic field name. -/
def strTS : List Nat := [116, 105, 109, 101, 114, 83, 116, 111, 112, 112, 101, 100]

/-- Raw byte plane of the synthetic process: the class name string at
1000, the empty namespace string at 1100, the field name strings at
1200 and 1300, and the instance snapshot at 5000 holding the f32 bit
pattern of 12.5 ([0, 0, 72, 65]) at field offset 0 and the false byte
at field offset 4; every other byte reads as 0. -/
def exMem (a : Nat) : Nat :=
  if 1000 ≤ a ∧ a < 1005 then strTimer.getD (a - 1000) 0
  else if 1200 ≤ a ∧ a < 1216 then strCLT.getD (a - 1200) 0
  else if 1300 ≤ a ∧ a < 1312 then strTS.getD (a - 1300) 0
  else if a = 5002 then 72
  else if a = 5003 then 65
  else 0

/-- The synthetic class record: instance_size 12, name string at 1000,
namespace string at 1100, field array at 4000, 2 fields, last in its
bucket chain. -/
def cdEx : MonoClassDef :=
  ⟨⟨12, 1000, 1100, 4000⟩, 2, 0⟩

/-- Synthetic process for the round-trip scenario: all byte reads
succeed (exMem), the single bucket head at 2000 points to the class
record at 3000, and the field array at 4000 holds currentLevelTime at
offset 0 and timerStopped at offset 4. -/
def pEx : ProcState where
  bytes := fun a => some (exMem a)
  ptrAt := fun a => if a = 2000 then some 3000 else none
  classDefAt := fun a => if a = 3000 then some cdEx else none
  fieldAt := fun a =>
    if a = 4000 then some ⟨1200, 0⟩
    else if a = 4032 then some ⟨1300, 4⟩
    else none
  glistAt := fun _ => none
  slotAt := fun _ => none

/-- Synthetic image whose class cache has one bucket at 2000. -/
def imgEx : MonoImage := ⟨⟨1, 2000⟩⟩

/-- The logical record description of the round-trip scenario: class
Timer, empty namespace, fields currentLevelTime (4 bytes) and
timerStopped (1 byte). -/
def descEx : ClassDescription :=
  ⟨strTimer, [], [(strCLT, 4), (strTS, 1)]⟩

/-- Synthetic process in which every remote read fails. -/
def pNone : ProcState where
  bytes := fun _ => none
  ptrAt := fun _ => none
  classDefAt := fun _ => none
  fieldAt := fun _ => none
  glistAt := fun _ => none
  slotAt := fun _ => none

/-- Synthetic process whose every byte reads as 65, with no NUL
anywhere. -/
def pAll65 : ProcState where
  bytes := fun _ => some 65
  ptrAt := fun _ => none
  classDefAt := fun _ => none
  fieldAt := fun _ => none
  glistAt := fun _ => none
  slotAt := fun _ => none

/-- Synthetic process for the page-boundary string scenario: every
byte reads as 65 except a NUL at 4396 (the first NUL of the string
starting at the page-aligned address 4096, at string offset 300) and a
NUL at 8200. -/
def pC7 : ProcState where
  bytes := fun a => some (if a = 4396 ∨ a = 8200 then 0 else 65)
  ptrAt := fun _ => none
  classDefAt := fun _ => none
  fieldAt := fun _ => none
  glistAt := fun _ => none
  slotAt := fun _ => none

/-- A second synthetic class record (bucket array scenario): no fields,
last in its chain. -/
def cdC6 : MonoClassDef :=
  ⟨⟨8, 1000, 1100, 4000⟩, 0, 0⟩

/-- Synthetic process for the bucket array scenario: bucket heads live
at 2000 + 8i for i < 56; every head is null except bucket 3, whose
chain holds the single class record at 3000. -/
def pC6 : ProcState where
  bytes := fun a => some (exMem a)
  ptrAt := fun a =>
    if a = 2024 then some 3000
    else if 2000 ≤ a ∧ a < 2448 ∧ (a - 2000) % 8 = 0 then some 0
    else none
  classDefAt := fun a => if a = 3000 then some cdC6 else none
  fieldAt := fun _ => none
  glistAt := fun _ => none
  slotAt := fun _ => none

/-- Synthetic image for the bucket array scenario: class cache reports
2 buckets at 2000, so the entry hanging off bucket 3 is outside the
walked range. -/
def imgC6 : MonoImage := ⟨⟨2, 2000⟩⟩

/-- Synthetic process for the truncated linked list scenario: the node
at 100 holds data pointer 1 and next pointer 200, and the read of node
200 fails. -/
def pG : ProcState where
  bytes := fun _ => none
  ptrAt := fun _ => none
  classDefAt := fun _ => none
  fieldAt := fun _ => none
  glistAt := fun a => if a = 100 then some ⟨1, 200, 0⟩ else none
  slotAt := fun _ => none

/-- Oversized synthetic class record for the snapshot-cap scenario. -/
def bBig : RecordBinding := ⟨⟨⟨5000, 1000, 1100, 4000⟩, 0, 0⟩, []⟩

/-- Read primitive with address 0 mapped, for the null-pointer
scenario. -/
def rdNullMapped : Nat → Option Nat :=
  fun a => if a = 0 then some 7 else none

/-- Byte content "ghost" of the absent third field name. -/
def strGhost : List Nat := [103, 104, 111, 115, 116]

/-- Class record with three declared fields for the failing-last-field
scenario. -/
def cdEx2 : MonoClassDef := ⟨⟨12, 1000, 1100, 4000⟩, 3, 0⟩

/-- Process for the failing-last-field scenario: identical to pEx
except the class declares three fields and the read of the third field
entry (address 4064) fails. -/
def pEx2 : ProcState where
  bytes := fun a => some (exMem a)
  ptrAt := fun a => if a = 2000 then some 3000 else none
  classDefAt := fun a => if a = 3000 then some cdEx2 else none
  fieldAt := fun a =>
    if a = 4000 then some ⟨1200, 0⟩
    else if a = 4032 then some ⟨1300, 4⟩
    else none
  glistAt := fun _ => none
  slotAt := fun _ => none

/-- Synthetic image whose class cache has one bucket at address 0. -/
def imgBucketAt0 : MonoImage := ⟨⟨1, 0⟩⟩

/-- First entry of the two-entry bucket chain scenario, linking to the
record at 3100. -/
def cdA : MonoClassDef := ⟨⟨8, 1000, 1100, 4000⟩, 0, 3100⟩

/-- Second entry of the two-entry bucket chain scenario, last in its
chain. -/
def cdB : MonoClassDef := ⟨⟨8, 1300, 1100, 4000⟩, 0, 0⟩

/-- Process of the two-entry bucket chain scenario: bucket heads at
2000 (chain 3000 -> 3100) and 2008 (empty). -/
def pC6w : ProcState where
  bytes := fun a => some (exMem a)
  ptrAt := fun a =>
    if a = 2000 then some 3000 else if a = 2008 then some 0 else none
  classDefAt := fun a =>
    if a = 3000 then some cdA else if a = 3100 then some cdB else none
  fieldAt := fun _ => none
  glistAt := fun _ => none
  slotAt := fun _ => none

/-- Step equation of the read_str loop at nonzero fuel. -/
theorem readStrLoop_succ (p : ProcState) (fuel addr : Nat) (acc : List Nat)
    (remaining : Nat) :
    readStrLoop p (fuel + 1) addr acc remaining =
      (if min (4096 - addr % 4096) 256 ≤ remaining then
        match readBytesList p addr (min (4096 - addr % 4096) 256) with
        | none => Res.panicked
        | some chunk =>
          match chunk.findIdx? (fun b => b == 0) with
          | some pos => Res.ok (acc ++ chunk.take pos)
          | none =>
            readStrLoop p fuel (addr - addr % 4096 + 4096) (acc ++ chunk)
              (remaining - min (4096 - addr % 4096) 256)
        else Res.panicked) :=
  rfl

/-- A successful field slice means the range fit the snapshot, its
buffer address was aligned, and the value is exactly that byte
range. -/
theorem sliceField_ok_inv (data : List Nat) (base off sz al : Nat) (v : List Nat)
    (h : sliceField data base off sz al = Res.ok v) :
    off + sz ≤ data.length ∧ (base + off) % al = 0 ∧
      v = (data.drop off).take sz := by
  unfold sliceField at h
  by_cases h1 : off ≤ data.length
  · rw [if_pos h1] at h
    by_cases h2 : sz ≤ (data.drop off).length
    · rw [if_pos h2] at h
      by_cases h3 : (base + off) % al = 0
      · rw [if_pos h3] at h
        simp only [List.length_drop] at h2
        refine ⟨by omega, h3, ?_⟩
        cases h
        rfl
      · rw [if_neg h3] at h
        cases h
    · rw [if_neg h2] at h
      cases h
  · rw [if_neg h1] at h
    cases h

/-- A field range inside the snapshot at an aligned buffer address
slices successfully. -/
theorem sliceField_eq_ok (data : List Nat) (base off sz al : Nat)
    (h : off + sz ≤ data.length) (hal : (base + off) % al = 0) :
    sliceField data base off sz al = Res.ok ((data.drop off).take sz) := by
  unfold sliceField
  rw [if_pos (by omega)]
  rw [if_pos (by simp only [List.length_drop]; omega)]
  rw [if_pos hal]

/-- A field range that overruns the snapshot fails to slice (the
bounds checks come before the reinterpretation). -/
theorem sliceField_eq_err (data : List Nat) (base off sz al : Nat)
    (h : data.length < off + sz) :
    sliceField data base off sz al = Res.err := by
  unfold sliceField
  by_cases h1 : off ≤ data.length
  · rw [if_pos h1]
    rw [if_neg (by simp only [List.length_drop]; omega)]
  · rw [if_neg h1]

/-- An in-bounds field range at a misaligned buffer address panics
(bytemuck::from_bytes's alignment requirement). -/
theorem sliceField_eq_panicked (data : List Nat) (base off sz al : Nat)
    (h : off + sz ≤ data.length) (hal : (base + off) % al ≠ 0) :
    sliceField data base off sz al = Res.panicked := by
  unfold sliceField
  rw [if_pos (by omega)]
  rw [if_pos (by simp only [List.length_drop]; omega)]
  rw [if_neg hal]

/-- Field slicing cannot panic at an aligned buffer address. -/
theorem sliceField_aligned_ne_panicked (data : List Nat) (base off sz al : Nat)
    (hal : (base + off) % al = 0) :
    sliceField data base off sz al ≠ Res.panicked := by
  unfold sliceField
  by_cases h1 : off ≤ data.length
  · rw [if_pos h1]
    by_cases h2 : sz ≤ (data.drop off).length
    · rw [if_pos h2, if_pos hal]; intro h; cases h
    · rw [if_neg h2]; intro h; cases h
  · rw [if_neg h1]; intro h; cases h

/-- With every field slice aligned, the field decode loop never
panics. -/
theorem decodeFields_aligned_ne_panicked (data : List Nat) (base : Nat) :
    ∀ triples : List (Nat × Nat × Nat),
      triples.all (fun t => decide ((base + t.1) % t.2.2 = 0)) = true →
      decodeFields data base triples ≠ Res.panicked := by
  intro triples
  induction triples with
  | nil => intro _ h; cases h
  | cons tr rest ih =>
    obtain ⟨off, sz, al⟩ := tr
    intro hall
    simp only [List.all_cons, Bool.and_eq_true, decide_eq_true_eq] at hall
    obtain ⟨hal, hrest⟩ := hall
    simp only [decodeFields]
    cases hs : sliceField data base off sz al with
    | ok v =>
      simp only [Res.bind]
      cases hr : decodeFields data base rest with
      | ok vs => simp only [Res.bind]; intro h; cases h
      | err => simp only [Res.bind]; intro h; cases h
      | panicked => exact absurd hr (ih hrest)
    | err => simp only [Res.bind]; intro h; cases h
    | panicked =>
      exact absurd hs (sliceField_aligned_ne_panicked data base off sz al hal)

/-- A successful field decode yields one in-bounds, aligned byte range
per bound field, each equal to the corresponding slice of the
snapshot. -/
theorem decodeFields_sound (data : List Nat) (base : Nat) :
    ∀ (triples : List (Nat × Nat × Nat)) (vs : List (List Nat)),
      decodeFields data base triples = Res.ok vs →
      vs.length = triples.length ∧
        ∀ i, i < triples.length →
          (triples.getD i (0, 0, 1)).1 + (triples.getD i (0, 0, 1)).2.1 ≤
              data.length ∧
            (base + (triples.getD i (0, 0, 1)).1) %
                (triples.getD i (0, 0, 1)).2.2 = 0 ∧
            vs.getD i [] =
              (data.drop (triples.getD i (0, 0, 1)).1).take
                (triples.getD i (0, 0, 1)).2.1 := by
  intro triples
  induction triples with
  | nil =>
    intro vs h
    simp only [decodeFields] at h
    cases h
    exact ⟨rfl, fun i hi => by simp at hi⟩
  | cons tr rest ih =>
    obtain ⟨off, sz, al⟩ := tr
    intro vs h
    simp only [decodeFields] at h
    cases hs : sliceField data base off sz al with
    | ok v =>
      rw [hs] at h
      simp only [Res.bind] at h
      cases hr : decodeFields data base rest with
      | ok vs' =>
        rw [hr] at h
        simp only [Res.bind] at h
        cases h
        obtain ⟨hb, hal, hv⟩ := sliceField_ok_inv data base off sz al v hs
        obtain ⟨hlen, hpt⟩ := ih vs' hr
        refine ⟨by simpa using hlen, ?_⟩
        intro i hi
        cases i with
        | zero => exact ⟨hb, hal, hv⟩
        | succ j =>
          simp only [List.getD_cons_succ]
          exact hpt j (by simpa using hi)
      | err => rw [hr] at h; simp only [Res.bind] at h; cases h
      | panicked => rw [hr] at h; simp only [Res.bind] at h; cases h
    | err => rw [hs] at h; simp only [Res.bind] at h; cases h
    | panicked => rw [hs] at h; simp only [Res.bind] at h; cases h

/-- If any bound field's range overruns the snapshot, the decode never
succeeds (it fails, or panics at an earlier misaligned in-bounds
field). -/
theorem decodeFields_oob_ne_ok (data : List Nat) (base : Nat) :
    ∀ triples : List (Nat × Nat × Nat),
      triples.any (fun t => decide (data.length < t.1 + t.2.1)) = true →
      ∀ vs, decodeFields data base triples ≠ Res.ok vs := by
  intro triples
  induction triples with
  | nil => intro h; simp at h
  | cons tr rest ih =>
    obtain ⟨off, sz, al⟩ := tr
    intro h vs
    simp only [decodeFields]
    by_cases hb : data.length < off + sz
    · rw [sliceField_eq_err data base off sz al hb]
      intro hc; cases hc
    · have hrest : rest.any (fun t => decide (data.length < t.1 + t.2.1)) = true := by
        simp only [List.any_cons, Bool.or_eq_true] at h
        rcases h with h | h
        · exact absurd (of_decide_eq_true h) hb
        · exact h
      cases hs : sliceField data base off sz al with
      | ok v =>
        simp only [Res.bind]
        cases hr : decodeFields data base rest with
        | ok vs' => exact absurd hr (ih hrest vs')
        | err => simp only [Res.bind]; intro hc; cases hc
        | panicked => simp only [Res.bind]; intro hc; cases hc
      | err => simp only [Res.bind]; intro hc; cases hc
      | panicked => simp only [Res.bind]; intro hc; cases hc

/-- With every field slice aligned, a range overrunning the snapshot
makes the whole decode fail with a failure result. -/
theorem decodeFields_aligned_oob_err (data : List Nat) (base : Nat) :
    ∀ triples : List (Nat × Nat × Nat),
      triples.all (fun t => decide ((base + t.1) % t.2.2 = 0)) = true →
      triples.any (fun t => decide (data.length < t.1 + t.2.1)) = true →
      decodeFields data base triples = Res.err := by
  intro triples
  induction triples with
  | nil => intro _ h; simp at h
  | cons tr rest ih =>
    obtain ⟨off, sz, al⟩ := tr
    intro hall h
    simp only [List.all_cons, Bool.and_eq_true, decide_eq_true_eq] at hall
    obtain ⟨hal, hallrest⟩ := hall
    simp only [decodeFields]
    by_cases hb : data.length < off + sz
    · rw [sliceField_eq_err data base off sz al hb]
      rfl
    · rw [sliceField_eq_ok data base off sz al (by omega) hal]
      simp only [Res.bind]
      have hrest : rest.any (fun t => decide (data.length < t.1 + t.2.1)) = true := by
        simp only [List.any_cons, Bool.or_eq_true] at h
        rcases h with h | h
        · exact absurd (of_decide_eq_true h) hb
        · exact h
      rw [ih (by simp only [List.all_eq_true, decide_eq_true_eq] at hallrest ⊢; exact hallrest) hrest]

/-- Claim C3 counterexample: decode can panic on a truncated
(undersized) class.  The binding's second field range 20+4 overruns
the 12-byte snapshot, so the claim demands the whole decode to fail
without panicking; but the first field, in bounds at offset 0 with
alignment 4, sits at buffer address base 1 + 0 which is not 4-aligned,
so bytemuck::from_bytes panics before the bounds failure is ever
reached. -/
theorem claim_C3_counterexample :
    (12 : Nat) < 20 + 4 ∧
      load pEx ⟨cdEx, [0, 20]⟩ [4, 4] [4, 4] 1 5000 = Res.panicked ∧
      load pEx ⟨cdEx, [0, 20]⟩ [4, 4] [4, 4] 1 5000 ≠ Res.err :=
  ⟨by decide, by decide, by decide⟩

/-- Claim C3 (amended): decoding rejects out-of-bounds layouts, but is
not panic-free.  (1) a declared instance_size above the fixed 4 KiB
snapshot cap fails the whole load with a failure result; (2) any bound
field whose offset+size overruns the snapshot keeps the whole decode
from succeeding; (3) when additionally every field slice is aligned,
such an overrun fails the whole decode with a failure result; (4) a
successful decode touches only in-bounds, aligned byte ranges of the
snapshot, each value being exactly the snapshot slice of its field;
(5) an in-bounds field slice whose buffer address base+offset is not a
multiple of the field's alignment makes the decode panic
(bytemuck::from_bytes); (6) with every field slice aligned, the load
path never panics, whatever the process state and binding. -/
theorem claim_C3 :
    (∀ (p : ProcState) (b : RecordBinding) (sizes aligns : List Nat)
        (base inst : Nat),
        4096 < i32AsUsize b.klass.klass.instance_size →
        load p b sizes aligns base inst = Res.err) ∧
    (∀ (data : List Nat) (base : Nat) (triples : List (Nat × Nat × Nat)),
        triples.any (fun t => decide (data.length < t.1 + t.2.1)) = true →
        ∀ vs, decodeFields data base triples ≠ Res.ok vs) ∧
    (∀ (data : List Nat) (base : Nat) (triples : List (Nat × Nat × Nat)),
        triples.all (fun t => decide ((base + t.1) % t.2.2 = 0)) = true →
        triples.any (fun t => decide (data.length < t.1 + t.2.1)) = true →
        decodeFields data base triples = Res.err) ∧
    (∀ (data : List Nat) (base : Nat) (triples : List (Nat × Nat × Nat))
        (vs : List (List Nat)),
        decodeFields data base triples = Res.ok vs →
        vs.length = triples.length ∧
          ∀ i, i < triples.length →
            (triples.getD i (0, 0, 1)).1 + (triples.getD i (0, 0, 1)).2.1 ≤
                data.length ∧
              (base + (triples.getD i (0, 0, 1)).1) %
                  (triples.getD i (0, 0, 1)).2.2 = 0 ∧
              vs.getD i [] =
                (data.drop (triples.getD i (0, 0, 1)).1).take
                  (triples.getD i (0, 0, 1)).2.1) ∧
    (∀ (data : List Nat) (base off sz al : Nat)
        (rest : List (Nat × Nat × Nat)),
        off + sz ≤ data.length → (base + off) % al ≠ 0 →
        decodeFields data base ((off, sz, al) :: rest) = Res.panicked) ∧
    (∀ (p : ProcState) (b : RecordBinding) (sizes aligns : List Nat)
        (base inst : Nat),
        (b.offsets.zip (sizes.zip aligns)).all
            (fun t => decide ((base + t.1) % t.2.2 = 0)) = true →
        load p b sizes aligns base inst ≠ Res.panicked) := by
  refine ⟨?_, decodeFields_oob_ne_ok, decodeFields_aligned_oob_err,
    decodeFields_sound, ?_, ?_⟩
  · intro p b sizes aligns base inst h
    simp only [load, get_instance]
    rw [if_neg (by omega)]
    rfl
  · intro data base off sz al rest hb hal
    simp only [decodeFields]
    rw [sliceField_eq_panicked data base off sz al hb hal]
    rfl
  · intro p b sizes aligns base inst hall
    simp only [load, get_instance]
    by_cases hsz : i32AsUsize b.klass.klass.instance_size ≤ 4096
    · rw [if_pos hsz]
      cases hr : readBytesList p inst (i32AsUsize b.klass.klass.instance_size) with
      | none => intro h; cases h
      | some buf =>
        simp only [Res.bind]
        exact decodeFields_aligned_ne_panicked buf base
          (b.offsets.zip (sizes.zip aligns)) hall
    · rw [if_neg hsz]
      intro h
      cases h

/-- Claim C3 witness: the cap rejection, the aligned bounds rejection
and the misalignment panic at concrete inputs. -/
theorem claim_C3_witness :
    load pEx bBig [] [] 0 0 = Res.err ∧
      decodeFields [0, 0] 0 [(1, 4, 1)] = Res.err ∧
      decodeFields [0, 0, 0, 0, 0] 0 [(1, 4, 4)] = Res.panicked :=
  ⟨claim_C3.1 pEx bBig [] [] 0 0 (by decide),
   claim_C3.2.2.1 [0, 0] 0 [(1, 4, 1)] (by decide) (by decide),
   claim_C3.2.2.2.2.1 [0, 0, 0, 0, 0] 0 1 4 4 [] (by decide) (by decide)⟩

/-- Claim C10: pointer arithmetic algebra.  cast preserves the address
and nullness and casting back is the identity; element offset equals
byte offset by count times the element size; byte offsets compose
additively (under the claim's no-overflow precondition, which the Nat
model satisfies everywhere); an indexed read reads at exactly the
address of offset-then-read. -/
theorem claim_C10 :
    (∀ (α β : Type) (p : Ptr α),
        (Ptr.cast β p).addr = p.addr ∧ (Ptr.cast β p).is_null = p.is_null ∧
          Ptr.cast α (Ptr.cast β p) = p) ∧
    (∀ (α : Type) (sz : Nat) (p : Ptr α) (n : Nat),
        Ptr.offset sz p n = Ptr.byte_offset p (n * sz)) ∧
    (∀ (α : Type) (p : Ptr α) (a b : Nat),
        p.addr + a + b < 2 ^ 64 →
          Ptr.byte_offset (Ptr.byte_offset p a) b = Ptr.byte_offset p (a + b)) ∧
    (∀ (α : Type) (rd : Nat → Option α) (sz : Nat) (p : Ptr α) (i : Nat),
        Ptr.index rd sz p i = Ptr.read rd (Ptr.offset sz p i)) := by
  refine ⟨fun α β p => ⟨rfl, rfl, rfl⟩, fun α sz p n => rfl,
    fun α p a b _ => ?_, fun α rd sz p i => rfl⟩
  simp [Ptr.byte_offset, Nat.add_assoc]

/-- Claim C10 witness: the composition law and the index law at
concrete pointers. -/
theorem claim_C10_witness :
    Ptr.byte_offset (Ptr.byte_offset (⟨10⟩ : Ptr Nat) 3) 4 =
        Ptr.byte_offset (⟨10⟩ : Ptr Nat) (3 + 4) ∧
      Ptr.index (fun a => some a) 4 (⟨10⟩ : Ptr Nat) 2 =
        Ptr.read (fun a => some a) (Ptr.offset 4 (⟨10⟩ : Ptr Nat) 2) :=
  ⟨claim_C10.2.2.1 Nat ⟨10⟩ 3 4 (by decide),
   claim_C10.2.2.2 Nat (fun a => some a) 4 ⟨10⟩ 2⟩

/-- Claim C5 counterexample: the null pointer reports is_null, but
dereferencing does not short-circuit: with a read primitive that
happens to succeed at address 0, Ptr::read of the null pointer
succeeds instead of failing, so the dereference issues the remote read
at address 0. -/
theorem claim_C5_counterexample :
    (⟨0⟩ : Ptr Nat).is_null = true ∧
      Ptr.read rdNullMapped (⟨0⟩ : Ptr Nat) = Res.ok 7 :=
  ⟨rfl, rfl⟩

/-- Claim C5 (amended): address 0 reports is_null; dereference
operations pass the null address straight to the read primitive (read
consults address 0, index consults 0 + i*size, the string read issues
its first chunk read at address 0 and panics if it fails), so they
fail exactly when the underlying read at those addresses fails. -/
theorem claim_C5 :
    (⟨0⟩ : Ptr Nat).is_null = true ∧
    (∀ (α : Type) (rd : Nat → Option α),
        Ptr.read rd (⟨0⟩ : Ptr α) = readOpt (rd 0)) ∧
    (∀ (α : Type) (rd : Nat → Option α),
        rd 0 = none → Ptr.read rd (⟨0⟩ : Ptr α) = Res.err) ∧
    (∀ (α : Type) (rd : Nat → Option α) (sz i : Nat),
        Ptr.index rd sz (⟨0⟩ : Ptr α) i = readOpt (rd (0 + i * sz))) ∧
    (∀ p : ProcState,
        readBytesList p 0 256 = none → read_str p 0 = Res.panicked) := by
  refine ⟨rfl, fun α rd => rfl, ?_, fun α rd sz i => rfl, ?_⟩
  · intro α rd h
    simp [Ptr.read, readOpt, h]
  · intro p h
    rw [read_str, show (32768 : Nat) = 32767 + 1 from rfl, readStrLoop_succ]
    rw [if_pos (by norm_num)]
    have h2 : min (4096 - 0 % 4096) 256 = 256 := by norm_num
    rw [h2, h]

/-- Claim C5 witness: the null-read failure path at a concrete read
primitive that has nothing mapped. -/
theorem claim_C5_witness :
    Ptr.read (fun _ => (none : Option Nat)) (⟨0⟩ : Ptr Nat) = Res.err ∧
      read_str pNone 0 = Res.panicked :=
  ⟨claim_C5.2.2.1 Nat (fun _ => none) rfl,
   claim_C5.2.2.2.2 pNone (by decide)⟩

/-- A successful offset resolution resolved every declared field, in
order, to the offsets it returned. -/
theorem resolveOffsets_sound (p : ProcState) (cd : MonoClassDef) :
    ∀ (fs : List (List Nat × Nat)) (offs : List Nat),
      resolveOffsets p cd fs = Res.ok offs →
      offs.length = fs.length ∧
        ∀ i, i < fs.length →
          find_field p cd (fs.getD i ([], 0)).1 = Res.ok (some (offs.getD i 0)) := by
  intro fs
  induction fs with
  | nil =>
    intro offs h
    simp only [resolveOffsets] at h
    cases h
    exact ⟨rfl, fun i hi => by simp at hi⟩
  | cons f rest ih =>
    obtain ⟨fname, fsize⟩ := f
    intro offs h
    simp only [resolveOffsets] at h
    cases hf : find_field p cd fname with
    | ok o =>
      rw [hf] at h
      cases o with
      | none => simp only [Res.bind] at h; cases h
      | some off =>
        simp only [Res.bind] at h
        cases hr : resolveOffsets p cd rest with
        | ok offs' =>
          rw [hr] at h
          simp only [Res.bind] at h
          cases h
          obtain ⟨hlen, hpt⟩ := ih offs' hr
          refine ⟨by simpa using hlen, ?_⟩
          intro i hi
          cases i with
          | zero => exact hf
          | succ j =>
            simp only [List.getD_cons_succ]
            exact hpt j (by simpa using hi)
        | err => rw [hr] at h; simp only [Res.bind] at h; cases h
        | panicked => rw [hr] at h; simp only [Res.bind] at h; cases h
    | err => rw [hf] at h; simp only [Res.bind] at h; cases h
    | panicked => rw [hf] at h; simp only [Res.bind] at h; cases h

/-- A full per-field resolution certificate makes the offset
resolution loop succeed with exactly those offsets. -/
theorem resolveOffsets_of_resolvesAll (p : ProcState) (cd : MonoClassDef) :
    ∀ (fs : List (List Nat × Nat)) (offs : List Nat),
      resolvesAll p cd fs offs = true →
      resolveOffsets p cd fs = Res.ok offs := by
  intro fs
  induction fs with
  | nil =>
    intro offs h
    cases offs with
    | nil => rfl
    | cons o os => simp [resolvesAll] at h
  | cons f rest ih =>
    obtain ⟨fname, fsize⟩ := f
    intro offs h
    cases offs with
    | nil => simp [resolvesAll] at h
    | cons off offs' =>
      simp only [resolvesAll, Bool.and_eq_true, decide_eq_true_eq] at h
      obtain ⟨hf, hr⟩ := h
      simp only [resolveOffsets, hf, Res.bind]
      rw [ih offs' hr]

/-- If every field before the last resolves and the last one does not,
the offset resolution loop fails as a whole. -/
theorem resolveOffsets_last_fail (p : ProcState) (cd : MonoClassDef)
    (lastName : List Nat) (lastSize : Nat)
    (hlast : find_field p cd lastName = Res.ok none) :
    ∀ (pre : List (List Nat × Nat)) (offsPre : List Nat),
      resolvesAll p cd pre offsPre = true →
      resolveOffsets p cd (pre ++ [(lastName, lastSize)]) = Res.err := by
  intro pre
  induction pre with
  | nil =>
    intro offsPre _
    simp only [List.nil_append, resolveOffsets, hlast, Res.bind]
  | cons f rest ih =>
    obtain ⟨fname, fsize⟩ := f
    intro offsPre h
    cases offsPre with
    | nil => simp [resolvesAll] at h
    | cons off offs' =>
      simp only [resolvesAll, Bool.and_eq_true, decide_eq_true_eq] at h
      obtain ⟨hf, hr⟩ := h
      simp only [List.cons_append, resolveOffsets, hf, Res.bind]
      have h2 := ih offs' hr
      rw [← List.append_eq] at h2
      rw [h2]

/-- Claim C2: binding is all-or-nothing.  (1) every binding bind
returns carries a resolved offset for every declared field, in order
(no partial RecordBinding is ever returned); (2) when the class
resolves and every field but the last resolves while resolution of the
last declared field fails - in particular because the read primitive
failed on that field's entry - bind fails as a whole. -/
theorem claim_C2 :
    (∀ (p : ProcState) (img : MonoImage) (desc : ClassDescription) (fuel : Nat)
        (b : RecordBinding),
        bind p img desc fuel = Res.ok b →
        b.offsets.length = desc.fields.length ∧
          ∀ i, i < desc.fields.length →
            find_field p b.klass (desc.fields.getD i ([], 0)).1 =
              Res.ok (some (b.offsets.getD i 0))) ∧
    (∀ (p : ProcState) (img : MonoImage) (fuel : Nat) (dn dns : List Nat)
        (pre : List (List Nat × Nat)) (lastName : List Nat) (lastSize : Nat)
        (offsPre : List Nat) (cd : MonoClassDef),
        findClass p (classNameMatches p dn dns) img fuel = Res.ok (some cd) →
        resolvesAll p cd pre offsPre = true →
        find_field p cd lastName = Res.ok none →
        bind p img ⟨dn, dns, pre ++ [(lastName, lastSize)]⟩ fuel = Res.err) := by
  constructor
  · intro p img desc fuel b h
    unfold bind at h
    cases hc : findClass p (classNameMatches p desc.name desc.name_space) img fuel with
    | ok o =>
      rw [hc] at h
      cases o with
      | none => simp only [Res.bind] at h; cases h
      | some cd =>
        simp only [Res.bind] at h
        cases hr : resolveOffsets p cd desc.fields with
        | ok offs =>
          rw [hr] at h
          simp only [Res.bind] at h
          cases h
          exact resolveOffsets_sound p cd desc.fields offs hr
        | err => rw [hr] at h; simp only [Res.bind] at h; cases h
        | panicked => rw [hr] at h; simp only [Res.bind] at h; cases h
    | err => rw [hc] at h; simp only [Res.bind] at h; cases h
    | panicked => rw [hc] at h; simp only [Res.bind] at h; cases h
  · intro p img fuel dn dns pre lastName lastSize offsPre cd hc hres hlast
    unfold bind
    dsimp only
    rw [hc]
    simp only [Res.bind]
    rw [resolveOffsets_last_fail p cd lastName lastSize hlast pre offsPre hres]

/-- Claim C2 witness: with the third field entry's read failing while
class lookup and the first two fields resolve, bind fails as a
whole. -/
theorem claim_C2_witness :
    bind pEx2 imgEx ⟨strTimer, [], [(strCLT, 4), (strTS, 1)] ++ [(strGhost, 4)]⟩ 9 =
      Res.err :=
  claim_C2.2 pEx2 imgEx 9 strTimer [] [(strCLT, 4), (strTS, 1)] strGhost 4
    [0, 4] cdEx2 (by decide) (by decide) (by decide)

/-- A full snapshot certificate together with an alignment certificate
makes the field decode loop succeed with exactly the stored values. -/
theorem decodeFields_of_storesVals (snap : List Nat) (base : Nat) :
    ∀ (fs : List (List Nat × Nat)) (offs aligns : List Nat)
      (vals : List (List Nat)),
      storesVals snap fs offs vals = true →
      alignsAll base offs aligns = true →
      decodeFields snap base (offs.zip ((fs.map Prod.snd).zip aligns)) =
        Res.ok vals := by
  intro fs
  induction fs with
  | nil =>
    intro offs aligns vals h ha
    cases offs with
    | nil =>
      cases vals with
      | nil => rfl
      | cons v vs => simp [storesVals] at h
    | cons o os => simp [storesVals] at h
  | cons f rest ih =>
    obtain ⟨fname, fsize⟩ := f
    intro offs aligns vals h ha
    cases offs with
    | nil => simp [storesVals] at h
    | cons off offs' =>
      cases vals with
      | nil => simp [storesVals] at h
      | cons v vs =>
        cases aligns with
        | nil => simp [alignsAll] at ha
        | cons al aligns' =>
          simp only [storesVals, Bool.and_eq_true, decide_eq_true_eq] at h
          obtain ⟨⟨hb, hv⟩, hr⟩ := h
          simp only [alignsAll, Bool.and_eq_true, decide_eq_true_eq] at ha
          obtain ⟨hal, har⟩ := ha
          show decodeFields snap base
              ((off, fsize, al) :: offs'.zip ((rest.map Prod.snd).zip aligns')) =
            Res.ok (v :: vs)
          simp only [decodeFields]
          rw [sliceField_eq_ok snap base off fsize al hb hal]
          simp only [Res.bind]
          rw [ih offs' aligns' vs hr har]
          simp only [Res.bind]
          rw [hv]

/-- Claim C1: bind-then-decode round trip.  For every synthetic
process memory whose class lookup resolves the described class, whose
field table resolves every declared field to its known offset, and
whose readable instance snapshot stores the given value bytes at those
offsets (all within the instance size, which fits the 4 KiB cap), and
for every snapshot-buffer base address at which all the declared field
types are aligned (the condition under which the bytemuck
reinterpretation does not panic), bind returns the binding with
exactly those offsets and load decodes exactly the stored field
values, for every field. -/
theorem claim_C1 (p : ProcState) (img : MonoImage) (desc : ClassDescription)
    (fuel : Nat) (cd : MonoClassDef) (offs aligns : List Nat)
    (vals : List (List Nat)) (base instAddr : Nat) (snap : List Nat)
    (_hN : 0 < desc.fields.length)
    (hfind : findClass p (classNameMatches p desc.name desc.name_space) img fuel =
      Res.ok (some cd))
    (hres : resolvesAll p cd desc.fields offs = true)
    (hcap : i32AsUsize cd.klass.instance_size ≤ 4096)
    (hsnap : readBytesList p instAddr (i32AsUsize cd.klass.instance_size) = some snap)
    (hvals : storesVals snap desc.fields offs vals = true)
    (halign : alignsAll base offs aligns = true) :
    bind p img desc fuel = Res.ok ⟨cd, offs⟩ ∧
      load p ⟨cd, offs⟩ (desc.fields.map Prod.snd) aligns base instAddr =
        Res.ok vals := by
  constructor
  · unfold bind
    rw [hfind]
    simp only [Res.bind]
    rw [resolveOffsets_of_resolvesAll p cd desc.fields offs hres]
  · unfold load get_instance
    simp only
    rw [if_pos hcap, hsnap]
    simp only [Res.bind]
    exact decodeFields_of_storesVals snap base desc.fields offs aligns vals
      hvals halign

/-- Claim C1 witness: the Timer scenario of the spec, a class with a
currentLevelTime f32 (size 4, align 4) at offset 0 and a timerStopped
byte at offset 4, instance bytes [0, 0, 72, 65, 0, ...], the snapshot
buffer at the 4-aligned base 512: bind resolves offsets [0, 4] and
load returns those exact stored bytes. -/
theorem claim_C1_witness :
    bind pEx imgEx descEx 9 = Res.ok ⟨cdEx, [0, 4]⟩ ∧
      load pEx ⟨cdEx, [0, 4]⟩ (descEx.fields.map Prod.snd) [4, 1] 512 5000 =
        Res.ok [[0, 0, 72, 65], [0]] :=
  claim_C1 pEx imgEx descEx 9 cdEx [0, 4] [4, 1] [[0, 0, 72, 65], [0]] 512 5000
    [0, 0, 72, 65, 0, 0, 0, 0, 0, 0, 0, 0] (by decide) (by decide) (by decide)
    (by decide) (by decide) (by decide) (by decide)

/-- Claim C4 counterexample: a string read whose first chunk read
fails does not surface a failure result - it panics (the source
unwraps read_into_uninit_buf). -/
theorem claim_C4_counterexample : read_str pNone 0 = Res.panicked := by decide

/-- Claim C4 (amended): pointer read, indexed read and instance
snapshotting surface a read failure as a failure result, and
linked-list iteration ends the sequence; but a string read panics when
a chunk read fails, legacy class enumeration panics when a bucket-head
read fails, and hash-table traversal panics when a slot read fails. -/
theorem claim_C4 :
    (∀ (α : Type) (rd : Nat → Option α) (q : Ptr α),
        Ptr.read rd q ≠ Res.panicked) ∧
    (∀ (α : Type) (rd : Nat → Option α) (sz : Nat) (q : Ptr α) (i : Nat),
        Ptr.index rd sz q i ≠ Res.panicked) ∧
    (∀ (p : ProcState) (cls : MonoClass) (inst : Nat),
        get_instance p cls inst ≠ Res.panicked) ∧
    (∀ (p : ProcState) (fuel addr : Nat),
        p.glistAt addr = none → glistToList p (fuel + 1) addr = []) ∧
    (∀ (p : ProcState) (addr : Nat),
        readBytesList p addr (min (4096 - addr % 4096) 256) = none →
        read_str p addr = Res.panicked) ∧
    (∀ (p : ProcState) (img : MonoImage) (fuel k : Nat),
        i32AsUsize img.class_cache.size = k + 1 →
        p.ptrAt img.class_cache.table = none →
        classes p img fuel = Res.panicked) ∧
    (∀ (p : ProcState) (t : GHashTable) (fuel k s : Nat),
        i32AsUsize t.table_size = k + 1 →
        p.ptrAt t.table = some s → s ≠ 0 → p.slotAt s = none →
        ghashIter p t (fuel + 1) = Res.panicked) := by
  refine ⟨?_, ?_, ?_, ?_, ?_, ?_, ?_⟩
  · intro α rd q
    unfold Ptr.read readOpt
    cases rd q.addr <;> intro h <;> cases h
  · intro α rd sz q i
    unfold Ptr.index readOpt
    cases rd (q.addr + i * sz) <;> intro h <;> cases h
  · intro p cls inst
    unfold get_instance
    by_cases hsz : i32AsUsize cls.instance_size ≤ 4096
    · rw [if_pos hsz]
      cases readBytesList p inst (i32AsUsize cls.instance_size) <;>
        intro h <;> cases h
    · rw [if_neg hsz]
      intro h
      cases h
  · intro p fuel addr h
    simp only [glistToList, h]
    by_cases h0 : addr == 0
    · rw [if_pos h0]
    · rw [if_neg h0]
  · intro p addr h
    rw [read_str, show (32768 : Nat) = 32767 + 1 from rfl, readStrLoop_succ]
    rw [if_pos (le_trans (min_le_right _ _) (by norm_num))]
    rw [h]
  · intro p img fuel k hsize hp
    unfold classes
    rw [hsize]
    simp only [classesFrom, Nat.zero_mul, Nat.add_zero]
    rw [hp]
  · intro p t fuel k s hsize hp hs hslot
    unfold ghashIter
    rw [hsize]
    simp only [ghashBuckets, Nat.zero_mul, Nat.add_zero]
    rw [hp]
    simp only [walkSlotChain]
    rw [if_neg (by simpa using hs)]
    rw [hslot]
    rfl

/-- Claim C4 witness: the string-read panic and the class-enumeration
panic at concrete failing processes. -/
theorem claim_C4_witness :
    read_str pNone 5 = Res.panicked ∧
      classes pNone imgBucketAt0 3 = Res.panicked :=
  ⟨claim_C4.2.2.2.2.1 pNone 5 (by decide),
   claim_C4.2.2.2.2.2.1 pNone imgBucketAt0 3 0 (by decide) (by decide)⟩

/-- A chain realization certificate determines the chain walk: from
head, every listed node is yielded in order, and the walk stops at the
stop pointer - either because it is null or because reading it
fails. -/
theorem walkClassChain_of_stopsAt (p : ProcState) :
    ∀ (chain : List (Nat × MonoClassDef)) (head fuel stop : Nat),
      classChainStopsAt p head chain stop = true →
      chain.length < fuel →
      (stop = 0 ∨ p.classDefAt stop = none) →
      walkClassChain p fuel head = chain.map Prod.snd := by
  intro chain
  induction chain with
  | nil =>
    intro head fuel stop hreal hfuel hstop
    simp only [classChainStopsAt, beq_iff_eq] at hreal
    subst hreal
    cases fuel with
    | zero => simp at hfuel
    | succ f =>
      simp only [walkClassChain]
      rcases hstop with h0 | hnone
      · simp [h0]
      · by_cases h0 : head = 0
        · simp [h0]
        · simp [h0, hnone]
  | cons pr rest ih =>
    obtain ⟨a, cd⟩ := pr
    intro head fuel stop hreal hfuel hstop
    simp only [classChainStopsAt, Bool.and_eq_true, beq_iff_eq,
      Bool.not_eq_true', beq_eq_false_iff_ne, ne_eq, decide_eq_true_eq] at hreal
    obtain ⟨⟨⟨hh, hz⟩, hn⟩, hr⟩ := hreal
    subst hh
    cases fuel with
    | zero => simp at hfuel
    | succ f =>
      simp only [walkClassChain]
      rw [if_neg (by simpa using hz)]
      simp only [hn]
      rw [ih cd.next_class_cache f stop hr (by simpa using hfuel) hstop]
      rfl

/-- A bucket-array realization certificate determines the bucket loop:
buckets contribute their chains in bucket-index order. -/
theorem classesFrom_of_bucketsRealize (p : ProcState) (tbl fuel : Nat) :
    ∀ (desc : List (List (Nat × MonoClassDef))) (i : Nat),
      bucketsRealize p tbl i desc = true →
      desc.all (fun c => decide (c.length < fuel)) = true →
      classesFrom p tbl fuel i desc.length =
        Res.ok ((desc.map (fun c => c.map Prod.snd)).flatten) := by
  intro desc
  induction desc with
  | nil => intro i _ _; rfl
  | cons chain rest ih =>
    intro i hreal hfuel
    simp only [List.all_cons, Bool.and_eq_true, decide_eq_true_eq] at hfuel
    obtain ⟨hflen, hfrest⟩ := hfuel
    simp only [bucketsRealize] at hreal
    cases hp : p.ptrAt (tbl + i * ptrSize) with
    | none => rw [hp] at hreal; cases hreal
    | some head =>
      rw [hp] at hreal
      simp only [Bool.and_eq_true] at hreal
      obtain ⟨hchain, hrest⟩ := hreal
      show classesFrom p tbl fuel i (rest.length + 1) = _
      simp only [classesFrom]
      rw [hp]
      rw [ih (i + 1) hrest (by simp only [List.all_eq_true, decide_eq_true_eq] at hfrest ⊢; exact hfrest)]
      simp only [Res.bind]
      rw [walkClassChain_of_stopsAt p chain head fuel 0 hchain hflen (Or.inl rfl)]
      simp [List.flatten_cons]

/-- Claim C6 counterexample: enumeration does not walk 56 buckets; it
walks as many buckets as the image's class_cache.size field reports.
With a table whose size field is 2 but whose entry hangs off bucket 3,
the 56-bucket walk the claim describes (classesSpecFixed56, modelled
from the spec's words) yields the entry while the code yields
nothing. -/
theorem claim_C6_counterexample :
    classes pC6 imgC6 10 = Res.ok [] ∧
      classesSpecFixed56 pC6 imgC6 10 = Res.ok [cdC6] :=
  ⟨by decide, by decide⟩

/-- Claim C6 (amended): legacy class enumeration walks a bucket array
whose length is the image's class_cache.size field (56 is
MONO_TABLE_NUM, the count of metadata tables, not of hash buckets);
for every well-formed acyclic table of that size with all reads
succeeding, it yields exactly the chained entries, in bucket-index
order with within-bucket chain order preserved, for every sufficient
fuel - in particular it terminates even when chains are empty. -/
theorem claim_C6 (p : ProcState) (img : MonoImage)
    (desc : List (List (Nat × MonoClassDef))) (fuel : Nat)
    (hsize : i32AsUsize img.class_cache.size = desc.length)
    (hreal : bucketsRealize p img.class_cache.table 0 desc = true)
    (hfuel : desc.all (fun c => decide (c.length < fuel)) = true) :
    classes p img fuel =
      Res.ok ((desc.map (fun c => c.map Prod.snd)).flatten) := by
  unfold classes
  rw [hsize]
  exact classesFrom_of_bucketsRealize p img.class_cache.table fuel desc 0 hreal hfuel

/-- Claim C6 witness: a two-bucket table, bucket 0 holding the chain
3000 -> 3100 and bucket 1 empty, enumerates both entries in chain
order. -/
theorem claim_C6_witness :
    classes pC6w ⟨⟨2, 2000⟩⟩ 9 =
      Res.ok (([[(3000, cdA), (3100, cdB)], []].map
        (fun c => c.map Prod.snd)).flatten) :=
  claim_C6 pC6w ⟨⟨2, 2000⟩⟩ [[(3000, cdA), (3100, cdB)], []] 9
    (by decide) (by decide) (by decide)

/-- Claim C7 (amended): each chunk read has length min(distance to the
next 4096-byte page boundary, 256), and when the string's first NUL
falls inside the first chunk the consumer receives exactly the bytes
before it.  (When no NUL is in a chunk the scan jumps to the next page
boundary - skipping the bytes between chunk end and boundary - so
beyond the first chunk the result is not in general the bytes before
the first NUL; see the counterexample.) -/
theorem claim_C7 (p : ProcState) (addr : Nat) (chunk : List Nat) (pos : Nat)
    (hchunk : readBytesList p addr (min (4096 - addr % 4096) 256) = some chunk)
    (hpos : chunk.findIdx? (fun b => b == 0) = some pos) :
    read_str p addr = Res.ok (chunk.take pos) := by
  rw [read_str, show (32768 : Nat) = 32767 + 1 from rfl, readStrLoop_succ]
  rw [if_pos (le_trans (min_le_right _ _) (by norm_num))]
  simp only [hchunk, hpos, List.nil_append]

/-- Claim C7 counterexample: the string at page-aligned address 4096
has its first NUL at offset 300 (bytes 0..299 read as 65, all pages
readable), yet the consumer receives 264 bytes - the first 256 bytes
of the page plus 8 bytes read after jumping to the next page boundary -
not the 300 bytes before the first NUL. -/
theorem claim_C7_counterexample :
    (List.range 300).all (fun k => pC7.bytes (4096 + k) == some 65) = true ∧
      pC7.bytes 4396 = some 0 ∧
      read_str pC7 4096 = Res.ok (List.replicate 264 65) ∧
      Res.ok (List.replicate 264 65) ≠
        (Res.ok (List.replicate 300 65) : Res (List Nat)) :=
  ⟨by decide, by decide, by decide, by decide⟩

/-- Claim C7 witness: a first-chunk NUL at offset 8 of the chunk read
at page-aligned address 8192 delivers exactly the 8 bytes before
it. -/
theorem claim_C7_witness :
    read_str pC7 8192 =
      Res.ok ((List.replicate 8 65 ++ 0 :: List.replicate 247 65).take 8) :=
  claim_C7 pC7 8192 (List.replicate 8 65 ++ 0 :: List.replicate 247 65) 8
    (by decide) (by decide)

/-- When every byte of the process is readable, a bounded read
succeeds and delivers only bytes the process holds. -/
theorem readBytesList_total (p : ProcState)
    (h : ∀ a, (p.bytes a).isSome = true) :
    ∀ (n addr : Nat), ∃ l, readBytesList p addr n = some l ∧
      ∀ x ∈ l, ∃ a, p.bytes a = some x := by
  intro n
  induction n with
  | zero => intro addr; exact ⟨[], rfl, by simp⟩
  | succ m ih =>
    intro addr
    obtain ⟨l, hl, hmem⟩ := ih (addr + 1)
    cases hb : p.bytes addr with
    | none =>
      have := h addr
      rw [hb] at this
      simp at this
    | some b =>
      refine ⟨b :: l, ?_, ?_⟩
      · simp only [readBytesList, hb, hl]
      · intro x hx
        rcases List.mem_cons.mp hx with h1 | h1
        · exact ⟨addr, by rw [h1]; exact hb⟩
        · exact hmem x h1

/-- A list without zeros has no first-zero index. -/
theorem findIdxZero_none (l : List Nat) (h : ∀ x ∈ l, x ≠ 0) :
    l.findIdx? (fun b => b == 0) = none := by
  simp only [List.findIdx?_eq_none_iff]
  intro x hx
  simpa using h x hx

/-- In a process whose every byte is readable and nonzero, the string
scan loop always panics: no chunk contains a NUL, so the scan runs
until the local buffer is exhausted, where the buffer split goes out
of bounds. -/
theorem readStrLoop_no_nul (p : ProcState)
    (h1 : ∀ a, (p.bytes a).isSome = true)
    (h2 : ∀ a v, p.bytes a = some v → v ≠ 0) :
    ∀ (fuel addr : Nat) (acc : List Nat) (remaining : Nat),
      readStrLoop p fuel addr acc remaining = Res.panicked := by
  intro fuel
  induction fuel with
  | zero => intro addr acc remaining; rfl
  | succ f ih =>
    intro addr acc remaining
    rw [readStrLoop_succ]
    by_cases hlen : min (4096 - addr % 4096) 256 ≤ remaining
    · rw [if_pos hlen]
      obtain ⟨l, hl, hmem⟩ :=
        readBytesList_total p h1 (min (4096 - addr % 4096) 256) addr
      have hfind : l.findIdx? (fun b => b == 0) = none := by
        refine findIdxZero_none l ?_
        intro x hx
        obtain ⟨a, ha⟩ := hmem x hx
        exact h2 a x ha
      simp only [hl, hfind]
      exact ih _ _ _
    · rw [if_neg hlen]

/-- Claim C8 (amended): at an address where no NUL occurs within
reach of the scan (every byte readable and nonzero), the string read
does not return a failure result - it panics once the 32 KiB buffer
is exhausted (the read has no failure channel: its signature returns
the consumer's value directly). -/
theorem claim_C8 (p : ProcState) (addr : Nat)
    (h1 : ∀ a, (p.bytes a).isSome = true)
    (h2 : ∀ a v, p.bytes a = some v → v ≠ 0) :
    read_str p addr = Res.panicked :=
  readStrLoop_no_nul p h1 h2 32768 addr [] 32768

/-- Claim C8 counterexample: with every byte reading 65 (no NUL
anywhere), the string read panics instead of failing. -/
theorem claim_C8_counterexample : read_str pAll65 0 = Res.panicked :=
  readStrLoop_no_nul pAll65 (fun _ => rfl)
    (fun a v h => by simp [pAll65] at h; omega) 32768 0 [] 32768

/-- Claim C8 witness. -/
theorem claim_C8_witness : read_str pAll65 5 = Res.panicked :=
  claim_C8 pAll65 5 (fun _ => rfl)
    (fun a v h => by simp [pAll65] at h; omega)

/-- A GList realization certificate determines the iteration: every
listed node's data is yielded in order and iteration stops at the stop
pointer - because it is null or because reading it fails. -/
theorem glistToList_of_stopsAt (p : ProcState) :
    ∀ (pre : List (Nat × GListNode)) (head fuel stop : Nat),
      glistStopsAt p head pre stop = true →
      pre.length < fuel →
      (stop = 0 ∨ p.glistAt stop = none) →
      glistToList p fuel head = pre.map (fun x => x.2.data) := by
  intro pre
  induction pre with
  | nil =>
    intro head fuel stop hreal hfuel hstop
    simp only [glistStopsAt, beq_iff_eq] at hreal
    subst hreal
    cases fuel with
    | zero => simp at hfuel
    | succ f =>
      simp only [glistToList]
      rcases hstop with h0 | hnone
      · simp [h0]
      · by_cases h0 : head = 0
        · simp [h0]
        · simp [h0, hnone]
  | cons pr rest ih =>
    obtain ⟨a, node⟩ := pr
    intro head fuel stop hreal hfuel hstop
    simp only [glistStopsAt, Bool.and_eq_true, beq_iff_eq,
      Bool.not_eq_true', beq_eq_false_iff_ne, ne_eq, decide_eq_true_eq] at hreal
    obtain ⟨⟨⟨hh, hz⟩, hn⟩, hr⟩ := hreal
    subst hh
    cases fuel with
    | zero => simp at hfuel
    | succ f =>
      simp only [glistToList]
      rw [if_neg (by simpa using hz)]
      simp only [hn]
      rw [ih node.next f stop hr (by simpa using hfuel) hstop]
      rfl

/-- Claim C9 (amended): a mid-sequence read failure does not fail the
whole traversal discarding partial results - linked-list iteration and
class-chain walking silently end the sequence at the failing read,
delivering exactly the elements read before it, indistinguishable from
a normal end of sequence. -/
theorem claim_C9 :
    (∀ (p : ProcState) (pre : List (Nat × GListNode)) (head fuel n : Nat),
        glistStopsAt p head pre n = true → n ≠ 0 → p.glistAt n = none →
        pre.length < fuel →
        glistToList p fuel head = pre.map (fun x => x.2.data)) ∧
    (∀ (p : ProcState) (chain : List (Nat × MonoClassDef)) (head fuel n : Nat),
        classChainStopsAt p head chain n = true → n ≠ 0 →
        p.classDefAt n = none → chain.length < fuel →
        walkClassChain p fuel head = chain.map Prod.snd) :=
  ⟨fun p pre head fuel n h _ hnone hf =>
      glistToList_of_stopsAt p pre head fuel n h hf (Or.inr hnone),
   fun p chain head fuel n h _ hnone hf =>
      walkClassChain_of_stopsAt p chain head fuel n h hf (Or.inr hnone)⟩

/-- Claim C9 counterexample: the list node at 100 points to node 200,
whose read fails mid-sequence; iteration delivers the partial sequence
[1] gathered before the failure instead of failing as a whole. -/
theorem claim_C9_counterexample :
    pG.glistAt 100 = some ⟨1, 200, 0⟩ ∧ pG.glistAt 200 = none ∧
      glistToList pG 10 100 = [1] :=
  ⟨by decide, by decide, by decide⟩

/-- Claim C9 witness. -/
theorem claim_C9_witness :
    glistToList pG 10 100 =
      [(100, (⟨1, 200, 0⟩ : GListNode))].map (fun x => x.2.data) :=
  claim_C9.1 pG [(100, ⟨1, 200, 0⟩)] 100 10 200 (by decide) (by decide)
    (by decide) (by decide)

end AsrDotnet
